import Mathlib

/-!
Verification of the client-side shopping-cart and order-checkout core of the
furniture-store frontend (`src/frontend/src/static/js/main.js`).

The JavaScript code is shallowly embedded: product ids are `Nat`, quantities
and prices are `Int` (every arithmetic use in the source is integral),
the in-memory `cart` array is a `List CartLine`, and the browser's
localStorage writes are modelled by explicit state records.  Each definition
below names the source function it embeds.
-/

/-- One cart entry, as stored in the `cart` array and in localStorage:
`{id, quantity}` (main.js:226-229). -/
structure CartLine where
  id : Nat
  quantity : Int
deriving Repr, DecidableEq

/-- Increment the quantity of the first line matching `p` by `q`:
`cart.find(item => item.id === productId)` followed by
`existingItem.quantity += quantity` (main.js:219-223) mutates the first
matching element of the array. -/
def incrFirst : List CartLine → Nat → Int → List CartLine
  | [], _, _ => []
  | l :: t, p, q => if l.id = p then { l with quantity := l.quantity + q } :: t
                    else l :: incrFirst t p q

/-- Embedding of `addToCart(productId, quantity)` (main.js:217-240): if a line with the
given id exists, add `quantity` to it; otherwise push `{id, quantity}` at the
end.  (The localStorage write and DOM updates carry no further state.) -/
def addToCart (cart : List CartLine) (productId : Nat) (quantity : Int) :
    List CartLine :=
  if cart.any (fun item => item.id = productId) then
    incrFirst cart productId quantity
  else
    cart ++ [{ id := productId, quantity := quantity }]

/-- Embedding of `removeCartItem(productId)` (main.js:1737-1749):
`cart = cart.filter(item => item.id != productId)`. -/
def removeCartItem (cart : List CartLine) (productId : Nat) : List CartLine :=
  cart.filter (fun item => item.id ≠ productId)

/-- Overwrite the quantity of the first line matching `p` with `q`:
`cart[index].quantity = quantity` where `index = cart.findIndex(...)`
(main.js:1717, 1725). -/
def setQuantityFirst : List CartLine → Nat → Int → List CartLine
  | [], _, _ => []
  | l :: t, p, q => if l.id = p then { l with quantity := q } :: t
                    else l :: setQuantityFirst t p q

/-- Embedding of `updateCartItem(productId, quantity)` (main.js:1715-1734): if the id is
present, a non-positive quantity removes the line and a positive quantity
overwrites it; if the id is absent nothing happens. -/
def updateCartItem (cart : List CartLine) (productId : Nat) (quantity : Int) :
    List CartLine :=
  if cart.any (fun item => item.id = productId) then
    if quantity ≤ 0 then removeCartItem cart productId
    else setQuantityFirst cart productId quantity
  else cart

/-- Embedding of `clearCart()` (main.js:1752-1767): `cart = []`. -/
def clearCart (_cart : List CartLine) : List CartLine := []

/-- One user-driven cart mutation, for reasoning about arbitrary operation
sequences (spec section 8, first property). -/
inductive CartOp where
  | add (productId : Nat) (quantity : Int)
  | setQ (productId : Nat) (quantity : Int)
  | remove (productId : Nat)
deriving Repr, DecidableEq

/-- Apply one cart operation. -/
def applyCartOp (cart : List CartLine) : CartOp → List CartLine
  | .add p q => addToCart cart p q
  | .setQ p q => updateCartItem cart p q
  | .remove p => removeCartItem cart p

/-- Run a sequence of cart operations starting from the empty cart
(`cart` is initialised to `[]` on a fresh session, main.js:18). -/
def runCartOps (ops : List CartOp) : List CartLine :=
  ops.foldl applyCartOp []

/-- The cart invariant of spec section 3: product ids are unique across the
sequence and every stored quantity is at least 1. -/
def CartInv (cart : List CartLine) : Prop :=
  (cart.map (fun l => l.id)).Nodup ∧ ∀ l ∈ cart, 1 ≤ l.quantity

instance : DecidablePred CartInv := fun _ =>
  inferInstanceAs (Decidable (_ ∧ _))

/-! ## Stateful cart model: in-memory array plus the persisted localStorage copy

Every mutating branch of the source ends with
`localStorage.setItem('cart', JSON.stringify(cart))`, so the persisted copy
tracks the in-memory array exactly on those branches; the absent-id branch of
`updateCartItem` performs no write at all. -/

/-- The in-memory `cart` variable together with the blob persisted under the
localStorage key `cart`. -/
structure CartState where
  mem : List CartLine
  stored : List CartLine
deriving Repr, DecidableEq

/-- Stateful `removeCartItem` (main.js:1737-1749): filter, then persist. -/
def removeCartItemS (st : CartState) (productId : Nat) : CartState :=
  let c := removeCartItem st.mem productId
  { mem := c, stored := c }

/-- Stateful `updateCartItem` (main.js:1715-1734).  When the id is found,
a non-positive quantity delegates to `removeCartItem` and a positive one
overwrites the line and persists; when the id is absent neither the array nor
the store is touched. -/
def updateCartItemS (st : CartState) (productId : Nat) (quantity : Int) :
    CartState :=
  if st.mem.any (fun item => item.id = productId) then
    if quantity ≤ 0 then removeCartItemS st productId
    else
      let c := setQuantityFirst st.mem productId quantity
      { mem := c, stored := c }
  else st

/-! ## Product resolution and the cart total (renderCart, main.js:1613-1631)

Each line's product is fetched from the API; on a fetch failure the static
`sampleProducts` table is consulted; a line resolving in neither source is
skipped (`if (!product) continue`).  Both sources are external collaborators,
so they enter the embedding as functions `Nat → Option ProductInfo`. -/

/-- The product attributes this core reads (spec section 3; the fields picked
out by `saveViewedProduct`, main.js:1394-1403, plus nothing the cart math
needs beyond `price`). -/
structure ProductInfo where
  id : Nat
  name : String
  price : Int
  original_price : Option Int
  image : String
  category : String
  discount_percentage : Option Int
  rating : Option Int
deriving Repr, DecidableEq

/-- Two-tier lookup of main.js:1616-1623: try the API (`fetchAPI`); if that
throws, fall back to `sampleProducts.find`; an id found in neither yields
nothing. -/
def resolveProduct (api fallback : Nat → Option ProductInfo) (id : Nat) :
    Option ProductInfo :=
  match api id with
  | some p => some p
  | none => fallback id

/-- The running total of `renderCart` (main.js:1609-1629): start from 0 and,
for each cart line whose product resolves, add `product.price * item.quantity`;
unresolved lines are skipped by `continue`. -/
def renderCartTotal (api fallback : Nat → Option ProductInfo)
    (cart : List CartLine) : Int :=
  cart.foldl
    (fun acc item =>
      match resolveProduct api fallback item.id with
      | some product => acc + product.price * item.quantity
      | none => acc)
    0

/-- The spec-side expression for the cart total: the sum of
`price × quantity` over exactly the lines whose product resolves. -/
def resolvedLineSum (api fallback : Nat → Option ProductInfo)
    (cart : List CartLine) : Int :=
  (cart.filterMap
    (fun item =>
      (resolveProduct api fallback item.id).map
        (fun product => product.price * item.quantity))).sum

/-! ## Checkout totals (updateCheckoutTotals, main.js:1974-1993) -/

/-- The shipping method radio group of the checkout form. -/
inductive ShippingMethod where
  | standard
  | express
deriving Repr, DecidableEq

/-- The four amounts written into the checkout summary. -/
structure CheckoutTotals where
  subtotal : Int
  discount : Int
  shipping : Int
  total : Int
deriving Repr, DecidableEq

/-- Embedding of `updateCheckoutTotals(subtotal)` (main.js:1974-1993): `discount` is the
constant 0, `shipping` is 50000 when the checked method is `express` and 0
otherwise, and `total = subtotal - discount + shipping`. -/
def updateCheckoutTotals (subtotal : Int) (method : ShippingMethod) :
    CheckoutTotals :=
  let discount : Int := 0
  let shipping : Int := if method = .express then 50000 else 0
  { subtotal := subtotal
    discount := discount
    shipping := shipping
    total := subtotal - discount + shipping }

/-! ## Delivery estimate (getEstimatedDelivery, main.js:2127-2166)

Dates are modelled as absolute day numbers with the epoch chosen so that
`d % 7 = 0` exactly when day `d` is a Sunday (`Date.getDay() === 0`).
`endDay` starts as a copy of `startDay` and `setDate(startDay.getDate() + k)`
advances that copy by `k` calendar days, with JavaScript normalising the
month rollover, so on day numbers it is plain addition. -/

/-- Embedding of `getEstimatedDelivery(shippingMethod)` run on day `today`: start tomorrow,
pushed one day if that is a Sunday; end `start + 2` (express) or `start + 5`
(standard), pushed one day if that is a Sunday.  Returns
`(startDay, endDay)`. -/
def getEstimatedDelivery (today : Nat) (shippingMethod : ShippingMethod) :
    Nat × Nat :=
  let startCand := today + 1
  let startDay := if startCand % 7 = 0 then startCand + 1 else startCand
  let span : Nat := if shippingMethod = .express then 2 else 5
  let endCand := startDay + span
  let endDay := if endCand % 7 = 0 then endCand + 1 else endCand
  (startDay, endDay)

/-! ## Checkout submission (the submit handler of initCheckoutEvents,
main.js:2073-2122) -/

/-- The payment method radio group of the checkout form. -/
inductive PaymentMethod where
  | cod
  | bankTransfer
  | momo
  | creditCard
deriving Repr, DecidableEq

/-- The customer block of an order (main.js:2089-2093). -/
structure CustomerInfo where
  fullname : String
  phone : String
  email : String
deriving Repr, DecidableEq

/-- The shipping-address block of an order (main.js:2094-2100). -/
structure ShippingInfo where
  address : String
  province : String
  district : String
  ward : String
  note : String
deriving Repr, DecidableEq

/-- The four display strings saved under `totals` (main.js:2104-2109). -/
structure TotalsText where
  subtotal : String
  discount : String
  shipping : String
  total : String
deriving Repr, DecidableEq

/-- The `orderData` record written to the `lastOrder` key (main.js:2086-2111).
The random 6-digit id suffix and today's date are ambient inputs and enter as
parameters; `estimated_delivery` is the day-number pair of
`getEstimatedDelivery` (the source formats it as a locale date-range
string). -/
structure OrderRec where
  id : String
  order_date : String
  customer : CustomerInfo
  shipping : ShippingInfo
  shipping_method : ShippingMethod
  payment_method : PaymentMethod
  items : List CartLine
  totals : TotalsText
  estimated_delivery : Nat × Nat
deriving Repr, DecidableEq

/-- The state the checkout submit handler touches: the in-memory cart, the
persisted cart blob, and the persisted `lastOrder` blob. -/
structure CheckoutState where
  cart : List CartLine
  storedCart : List CartLine
  lastOrder : Option OrderRec
deriving Repr, DecidableEq

/-- The checkout form submit handler (main.js:2075-2122).  An empty cart
shows the warning notification and returns with nothing written; otherwise
the order record is assembled with `items := cart`, written to `lastOrder`,
and the cart is cleared both in memory and in the store.  The returned flag
is whether the empty-cart warning was shown (submission blocked). -/
def submitCheckout (st : CheckoutState) (orderId : String) (orderDate : String)
    (customer : CustomerInfo) (shipping : ShippingInfo)
    (method : ShippingMethod) (payment : PaymentMethod) (totals : TotalsText)
    (today : Nat) : CheckoutState × Bool :=
  if st.cart.isEmpty then (st, true)
  else
    let orderData : OrderRec :=
      { id := orderId
        order_date := orderDate
        customer := customer
        shipping := shipping
        shipping_method := method
        payment_method := payment
        items := st.cart
        totals := totals
        estimated_delivery := getEstimatedDelivery today method }
    ({ cart := [], storedCart := [], lastOrder := some orderData }, false)

/-! ## Currency formatting (formatCurrency, main.js:1539-1541)

`amount.toLocaleString('vi-VN')` renders a non-negative integer as its
decimal digits grouped in threes from the right with `.` as the group
separator; `formatCurrency` appends the đồng sign.  The checkout page
recovers the subtotal from this display text with
`parseFloat(text.replace(/[^0-9]/g, ''))` (main.js:2002-2003). -/

/-- The character for decimal digit `d` (`0 ≤ d ≤ 9`). -/
def digitChar (d : Nat) : Char := Char.ofNat (48 + d)

/-- The decimal digit characters of `n`, most significant first, as
`toLocaleString` starts from (`0` renders as `"0"`). -/
def decimalChars (n : Nat) : List Char :=
  if n = 0 then ['0'] else ((Nat.digits 10 n).map digitChar).reverse

/-- Insert the vi-VN group separator `.` after every three characters of a
least-significant-first digit list. -/
def groupThrees : List Char → List Char
  | a :: b :: c :: d :: rest => a :: b :: c :: '.' :: groupThrees (d :: rest)
  | l => l

/-- Embedding of `formatCurrency(amount)` (main.js:1539-1541) on a non-negative integer:
`amount.toLocaleString('vi-VN') + '₫'`. -/
def formatCurrency (amount : Nat) : String :=
  String.mk ((groupThrees (decimalChars amount).reverse).reverse) ++ "₫"

/-- Embedding of the subtotal re-read `text.replace(/[^0-9]/g, '')` (main.js:2003): keep only the digit
characters of the display string. -/
def stripNonDigits (s : String) : List Char :=
  s.data.filter (fun c => c.isDigit)

/-- Value of `parseFloat` applied to a non-empty all-digit string: the denoted
non-negative integer, read most significant digit first. -/
def parseDigits (cs : List Char) : Nat :=
  cs.foldl (fun acc c => 10 * acc + (c.toNat - 48)) 0

/-! ## Recently-viewed tracker (saveViewedProduct, main.js:1381-1413) -/

/-- The trimmed snapshot unshifted by `saveViewedProduct`
(main.js:1394-1403): the eight listed product fields at view time. -/
structure ViewedEntry where
  id : Nat
  name : String
  price : Int
  original_price : Option Int
  image : String
  category : String
  discount_percentage : Option Int
  rating : Option Int
deriving Repr, DecidableEq

/-- The snapshot taken of a product when it is viewed. -/
def toViewedEntry (p : ProductInfo) : ViewedEntry :=
  { id := p.id
    name := p.name
    price := p.price
    original_price := p.original_price
    image := p.image
    category := p.category
    discount_percentage := p.discount_percentage
    rating := p.rating }

/-- Embedding of `findIndex` + `splice(index, 1)` (main.js:1387-1391): drop the first
entry with the given id, if any. -/
def removeFirstViewed : List ViewedEntry → Nat → List ViewedEntry
  | [], _ => []
  | e :: t, i => if e.id = i then t else e :: removeFirstViewed t i

/-- Embedding of `saveViewedProduct(product)` (main.js:1381-1413) on a well-formed stored
list: remove the first entry with the product's id, unshift a fresh snapshot,
`slice(0, 10)`, persist. -/
def saveViewedProduct (viewedProducts : List ViewedEntry) (product : ProductInfo) :
    List ViewedEntry :=
  (toViewedEntry product :: removeFirstViewed viewedProducts product.id).take 10

/-- The persisted recently-viewed list after a sequence of product views,
starting from the `'[]'` default (main.js:1384). -/
def runViewed (products : List ProductInfo) : List ViewedEntry :=
  products.foldl saveViewedProduct []

/-- The delivery estimate exactly as the spec words it (section 4.2): the
start date is tomorrow, skipping to the day after if tomorrow lands on the
non-delivery day (Sunday); the end date is start + 2 days for express and
start + 5 for standard, pushed one day later if it lands on that day. -/
def deliveryEstimateSpec (today : Nat) (shippingMethod : ShippingMethod) :
    Nat × Nat :=
  let tomorrow := today + 1
  let startDay := if tomorrow % 7 = 0 then tomorrow + 1 else tomorrow
  let endCand :=
    match shippingMethod with
    | .express => startDay + 2
    | .standard => startDay + 5
  let endDay := if endCand % 7 = 0 then endCand + 1 else endCand
  (startDay, endDay)

/-! ## Persisted-store parsing (the cart initialiser, main.js:18)

`let cart = JSON.parse(localStorage.getItem('cart')) || []` runs at the top
level of the script with no try/catch.  `JSON.parse` is embedded as a
recursive-descent parser over the stored text returning `none` exactly where
the builtin throws `SyntaxError` (numbers are modelled as optionally signed
integers — the only numeric shape this core ever stores).  A `none` result of
`initCart` below therefore marks an exception that propagates out of the
script's top level. -/

/-- A JavaScript JSON value. -/
inductive Json where
  | null
  | bool (b : Bool)
  | num (n : Int)
  | str (s : String)
  | arr (elems : List Json)
  | obj (fields : List (String × Json))
deriving Repr

/-- The opening-brace character, written by code point to keep it out of
string literals. -/
def lbrace : Char := Char.ofNat 123

/-- The closing-brace character. -/
def rbrace : Char := Char.ofNat 125

/-- Skip JSON whitespace. -/
def skipWs : List Char → List Char
  | c :: rest =>
    if c = ' ' ∨ c = '\n' ∨ c = '\t' ∨ c = '\r' then skipWs rest else c :: rest
  | [] => []

/-- Require the literal characters `lit` as a prefix of the input. -/
def expectChars : List Char → List Char → Option (List Char)
  | [], cs => some cs
  | l :: lit, c :: cs => if c = l then expectChars lit cs else none
  | _ :: _, [] => none

/-- Parse the body of a JSON string literal up to the closing quote.
Escapes keep the escaped character (enough to decide validity; this core
never stores characters needing numeric unescaping). -/
def parseStrChars : List Char → Option (List Char × List Char)
  | [] => none
  | c :: rest =>
    if c = '"' then some ([], rest)
    else if c = '\\' then
      match rest with
      | [] => none
      | e :: rest2 =>
        match parseStrChars rest2 with
        | some (acc, rem) => some (e :: acc, rem)
        | none => none
    else
      match parseStrChars rest with
      | some (acc, rem) => some (c :: acc, rem)
      | none => none

/-- Parse an unsigned integer literal. -/
def parseNatLit (cs : List Char) : Option (Nat × List Char) :=
  let p := cs.span (fun c => c.isDigit)
  if p.1.isEmpty then none else some (parseDigits p.1, p.2)

mutual

/-- Parse one JSON value. -/
def parseVal : Nat → List Char → Option (Json × List Char)
  | 0, _ => none
  | fuel + 1, cs =>
    match skipWs cs with
    | [] => none
    | c :: rest =>
      if c = '"' then
        match parseStrChars rest with
        | some (body, rem) => some (.str (String.mk body), rem)
        | none => none
      else if c = '[' then
        match skipWs rest with
        | ']' :: rem => some (.arr [], rem)
        | cs2 =>
          match parseElems fuel cs2 with
          | some (es, rem) => some (.arr es, rem)
          | none => none
      else if c = lbrace then
        match skipWs rest with
        | d :: rem =>
          if d = rbrace then some (.obj [], rem)
          else
            match parseFields fuel (d :: rem) with
            | some (fs, rem2) => some (.obj fs, rem2)
            | none => none
        | [] => none
      else if c = 't' then
        (expectChars ['r', 'u', 'e'] rest).map (fun rem => (.bool true, rem))
      else if c = 'f' then
        (expectChars ['a', 'l', 's', 'e'] rest).map (fun rem => (.bool false, rem))
      else if c = 'n' then
        (expectChars ['u', 'l', 'l'] rest).map (fun rem => (.null, rem))
      else if c = '-' then
        match parseNatLit rest with
        | some (n, rem) => some (.num (-(n : Int)), rem)
        | none => none
      else if c.isDigit then
        match parseNatLit (c :: rest) with
        | some (n, rem) => some (.num (n : Int), rem)
        | none => none
      else none

/-- Parse the comma-separated elements of a non-empty array, consuming the
closing bracket. -/
def parseElems : Nat → List Char → Option (List Json × List Char)
  | 0, _ => none
  | fuel + 1, cs =>
    match parseVal fuel cs with
    | none => none
    | some (v, rem) =>
      match skipWs rem with
      | ',' :: rem2 =>
        match parseElems fuel rem2 with
        | some (vs, rem3) => some (v :: vs, rem3)
        | none => none
      | ']' :: rem2 => some ([v], rem2)
      | _ => none

/-- Parse the comma-separated members of a non-empty object, consuming the
closing brace. -/
def parseFields : Nat → List Char → Option (List (String × Json) × List Char)
  | 0, _ => none
  | fuel + 1, cs =>
    match skipWs cs with
    | '"' :: rest =>
      match parseStrChars rest with
      | none => none
      | some (key, rem) =>
        match skipWs rem with
        | ':' :: rem2 =>
          match parseVal fuel rem2 with
          | none => none
          | some (v, rem3) =>
            match skipWs rem3 with
            | ',' :: rem4 =>
              match parseFields fuel rem4 with
              | some (fs, rem5) => some ((String.mk key, v) :: fs, rem5)
              | none => none
            | d :: rem4 =>
              if d = rbrace then some ([(String.mk key, v)], rem4) else none
            | [] => none
        | _ => none
    | _ => none

end

/-- Embedding of `JSON.parse(text)`: parse one value and require only whitespace after
it; `none` is a thrown `SyntaxError`. -/
def jsonParse (s : String) : Option Json :=
  match parseVal (s.length + 1) s.data with
  | some (v, rem) => if (skipWs rem).isEmpty then some v else none
  | none => none

/-- Decode one element of a stored cart array: an object with numeric
`id` and `quantity` members (the shape `addToCart` writes). -/
def jsonToCartLine (v : Json) : Option CartLine :=
  match v with
  | .obj fields =>
    match fields.lookup "id", fields.lookup "quantity" with
    | some (.num i), some (.num q) => some { id := i.toNat, quantity := q }
    | _, _ => none
  | _ => none

/-- The value of `JSON.parse(blob) || []`: a falsy parse result (`null`,
`false`, `0`, `""`) is replaced by the empty array, an array is used as the
cart.  (A truthy non-array would be kept as-is by JavaScript; no write path
of this core produces one.) -/
def jsonToCart (v : Json) : List CartLine :=
  match v with
  | .arr es => es.filterMap jsonToCartLine
  | _ => []

/-- The cart initialiser `JSON.parse(localStorage.getItem('cart')) || []`
(main.js:18).  `getItem` returns `null` for an absent key and
`JSON.parse(null)` yields `null`, so an absent blob gives `[]`; a stored blob
is parsed with NO surrounding try/catch, so a `SyntaxError` (`none`)
propagates out of the script's top level. -/
def initCart (stored : Option String) : Option (List CartLine) :=
  match stored with
  | none => some []
  | some s =>
    match jsonParse s with
    | none => none
    | some v => some (jsonToCart v)

/-- The primary catalog of end-to-end scenario B: product 1 is live with
price 100000. -/
def scenarioApi : Nat → Option ProductInfo := fun id =>
  if id = 1 then
    some { id := 1, name := "Ghế sofa da cao cấp", price := 100000,
           original_price := none, image := "", category := "",
           discount_percentage := none, rating := none }
  else none

/-- The static fallback catalog of scenario B: product 2 resolves there with
price 50000 after the primary lookup fails. -/
def scenarioFallback : Nat → Option ProductInfo := fun id =>
  if id = 2 then
    some { id := 2, name := "Bàn ăn gỗ sồi", price := 50000,
           original_price := none, image := "", category := "",
           discount_percentage := none, rating := none }
  else none

/-! ## Helper lemmas about the cart operations -/

theorem incrFirst_map_id (c : List CartLine) (p : Nat) (q : Int) :
    (incrFirst c p q).map (fun l => l.id) = c.map (fun l => l.id) := by
  induction c with
  | nil => rfl
  | cons l t ih =>
    by_cases h : l.id = p <;> simp [incrFirst, h, ih]

theorem setQuantityFirst_map_id (c : List CartLine) (p : Nat) (q : Int) :
    (setQuantityFirst c p q).map (fun l => l.id) = c.map (fun l => l.id) := by
  induction c with
  | nil => rfl
  | cons l t ih =>
    by_cases h : l.id = p <;> simp [setQuantityFirst, h, ih]

theorem mem_incrFirst (c : List CartLine) (p : Nat) (q : Int)
    (x : CartLine) (hx : x ∈ incrFirst c p q) :
    x ∈ c ∨ ∃ l ∈ c, l.id = p ∧ x = { l with quantity := l.quantity + q } := by
  induction c with
  | nil => simp [incrFirst] at hx
  | cons l t ih =>
    by_cases h : l.id = p
    · simp only [incrFirst, if_pos h, List.mem_cons] at hx
      rcases hx with hx | hx
      · exact Or.inr ⟨l, by simp, h, hx⟩
      · exact Or.inl (by simp [hx])
    · simp only [incrFirst, if_neg h, List.mem_cons] at hx
      rcases hx with hx | hx
      · exact Or.inl (by simp [hx])
      · rcases ih hx with h1 | ⟨l0, hl0, hid, hxe⟩
        · exact Or.inl (by simp [h1])
        · exact Or.inr ⟨l0, by simp [hl0], hid, hxe⟩

theorem mem_setQuantityFirst (c : List CartLine) (p : Nat) (q : Int)
    (x : CartLine) (hx : x ∈ setQuantityFirst c p q) :
    x ∈ c ∨ ∃ l ∈ c, l.id = p ∧ x = { l with quantity := q } := by
  induction c with
  | nil => simp [setQuantityFirst] at hx
  | cons l t ih =>
    by_cases h : l.id = p
    · simp only [setQuantityFirst, if_pos h, List.mem_cons] at hx
      rcases hx with hx | hx
      · exact Or.inr ⟨l, by simp, h, hx⟩
      · exact Or.inl (by simp [hx])
    · simp only [setQuantityFirst, if_neg h, List.mem_cons] at hx
      rcases hx with hx | hx
      · exact Or.inl (by simp [hx])
      · rcases ih hx with h1 | ⟨l0, hl0, hid, hxe⟩
        · exact Or.inl (by simp [h1])
        · exact Or.inr ⟨l0, by simp [hl0], hid, hxe⟩

theorem removeCartItem_sublist (c : List CartLine) (p : Nat) :
    (removeCartItem c p).Sublist c :=
  List.filter_sublist c

theorem cartInv_removeCartItem (c : List CartLine) (p : Nat)
    (h : CartInv c) : CartInv (removeCartItem c p) := by
  obtain ⟨hnd, hq⟩ := h
  refine ⟨List.Nodup.sublist (List.Sublist.map _ (removeCartItem_sublist c p)) hnd, ?_⟩
  intro l hl
  exact hq l (List.Sublist.mem hl (removeCartItem_sublist c p))

theorem cartInv_addToCart (c : List CartLine) (p : Nat) (q : Int)
    (h : CartInv c) (hq : 1 ≤ q) : CartInv (addToCart c p q) := by
  obtain ⟨hnd, hquant⟩ := h
  by_cases hp : c.any (fun item => item.id = p)
  · simp only [addToCart, if_pos hp]
    refine ⟨by rw [incrFirst_map_id]; exact hnd, ?_⟩
    intro l hl
    rcases mem_incrFirst c p q l hl with hmem | ⟨l0, hl0, _, hle⟩
    · exact hquant l hmem
    · have := hquant l0 hl0
      subst hle
      simp only
      omega
  · simp only [addToCart, if_neg hp]
    constructor
    · simp only [List.map_append, List.map_cons, List.map_nil]
      rw [List.nodup_append]
      refine ⟨hnd, List.nodup_singleton _, ?_⟩
      intro a ha hb
      simp only [List.mem_singleton] at hb
      subst hb
      rw [List.any_eq_true] at hp
      simp only [List.mem_map] at ha
      obtain ⟨l0, hl0, hid⟩ := ha
      exact hp ⟨l0, hl0, by simp [hid]⟩
    · intro l hl
      rcases List.mem_append.mp hl with hmem | hmem
      · exact hquant l hmem
      · simp only [List.mem_singleton] at hmem
        subst hmem
        exact hq

theorem cartInv_updateCartItem (c : List CartLine) (p : Nat) (q : Int)
    (h : CartInv c) : CartInv (updateCartItem c p q) := by
  by_cases hp : c.any (fun item => item.id = p)
  · by_cases hq : q ≤ 0
    · simpa [updateCartItem, hp, hq] using cartInv_removeCartItem c p h
    · obtain ⟨hnd, hquant⟩ := h
      simp only [updateCartItem, if_pos hp, if_neg hq]
      refine ⟨by rw [setQuantityFirst_map_id]; exact hnd, ?_⟩
      intro l hl
      rcases mem_setQuantityFirst c p q l hl with hmem | ⟨l0, hl0, _, hle⟩
      · exact hquant l hmem
      · subst hle
        simp only
        omega
  · simpa [updateCartItem, hp] using h

theorem cartInv_foldl (ops : List CartOp) (c : List CartLine)
    (hc : CartInv c) (hadd : ∀ p q, CartOp.add p q ∈ ops → 1 ≤ q) :
    CartInv (ops.foldl applyCartOp c) := by
  induction ops generalizing c with
  | nil => simpa using hc
  | cons op t ih =>
    simp only [List.foldl_cons]
    apply ih
    · cases op with
      | add p q => exact cartInv_addToCart c p q hc (hadd p q (by simp))
      | setQ p q => exact cartInv_updateCartItem c p q hc
      | remove p => exact cartInv_removeCartItem c p hc
    · intro p q hm
      exact hadd p q (by simp [hm])

/-- C1 (amended: each `add` in the sequence carries a quantity ≥ 1, as every
UI entry point supplies — `addToCart` itself performs no validation, see the
counterexample): for every sequence of `add`/`setQuantity`/`remove`
operations on an initially empty cart, the resulting cart has pairwise
distinct product ids and every stored quantity is ≥ 1. -/
theorem addToCart_updateCartItem_removeCartItem_preserve_invariant
    (ops : List CartOp) (hadd : ∀ p q, CartOp.add p q ∈ ops → 1 ≤ q) :
    CartInv (runCartOps ops) :=
  cartInv_foldl ops [] (by decide) hadd

/-- Witness for the amended C1 at a concrete operation sequence. -/
theorem addToCart_updateCartItem_removeCartItem_preserve_invariant_witness :
    CartInv (runCartOps [CartOp.add 1 2, CartOp.add 3 1, CartOp.setQ 1 5,
      CartOp.remove 3]) :=
  addToCart_updateCartItem_removeCartItem_preserve_invariant _
    (by intro p q h; simp at h; omega)

/-- C1 counterexample: the claim as stated quantifies over every `add`
argument, but `addToCart` validates nothing — `add(1, 0)` on the empty cart
stores a line with quantity 0, violating `quantity ≥ 1`. -/
theorem addToCart_zero_quantity_breaks_invariant :
    ¬ CartInv (runCartOps [CartOp.add 1 0]) := by decide

theorem incrFirst_incrFirst (c : List CartLine) (p : Nat) (n m : Int) :
    incrFirst (incrFirst c p n) p m = incrFirst c p (n + m) := by
  induction c with
  | nil => rfl
  | cons l t ih =>
    by_cases h : l.id = p
    · simp [incrFirst, h, add_assoc]
    · simp [incrFirst, h, ih]

theorem incrFirst_append_not_mem (c : List CartLine) (p : Nat) (n m : Int)
    (h : c.any (fun item => item.id = p) = false) :
    incrFirst (c ++ [{ id := p, quantity := n }]) p m
      = c ++ [{ id := p, quantity := n + m }] := by
  induction c with
  | nil => simp [incrFirst]
  | cons l t ih =>
    simp only [List.any_cons, Bool.or_eq_false_iff] at h
    have hl : ¬ l.id = p := by simpa using h.1
    simp [incrFirst, hl, ih h.2]

theorem any_id_incrFirst (c : List CartLine) (p p' : Nat) (q : Int) :
    (incrFirst c p q).any (fun item => item.id = p')
      = c.any (fun item => item.id = p') := by
  have key : ∀ d : List CartLine,
      d.any (fun item => item.id = p')
        = (d.map (fun l => l.id)).any (fun i => i = p') := by
    intro d
    induction d with
    | nil => rfl
    | cons l t ih => simp [ih]
  rw [key, key, incrFirst_map_id]

/-- C8: `add(p, n)` then `add(p, m)` is the same cart transformation as a
single `add(p, n + m)`, for every starting cart and all quantities; in
particular `add(42, 1)` then `add(42, 2)` on the empty cart yields the
single line `{42, 3}` (end-to-end scenario A). -/
theorem addToCart_addToCart_eq_addToCart_add :
    (∀ (c : List CartLine) (p : Nat) (n m : Int),
        addToCart (addToCart c p n) p m = addToCart c p (n + m)) ∧
    runCartOps [CartOp.add 42 1, CartOp.add 42 2]
      = [{ id := 42, quantity := 3 }] := by
  constructor
  · intro c p n m
    by_cases hp : c.any (fun item => item.id = p)
    · have h2 : (incrFirst c p n).any (fun item => item.id = p) = true := by
        rw [any_id_incrFirst]
        exact hp
      simp only [addToCart, if_pos hp, if_pos h2]
      exact incrFirst_incrFirst c p n m
    · have hp' : c.any (fun item => item.id = p) = false := by
        simpa using hp
      have h2 : ((c ++ [({ id := p, quantity := n } : CartLine)]).any
          (fun item => item.id = p)) = true := by
        simp [List.any_append]
      simp only [addToCart, if_neg hp, if_pos h2]
      exact incrFirst_append_not_mem c p n m hp'
  · decide

theorem map_overwrite_of_not_mem (c : List CartLine) (p : Nat) (q : Int)
    (h : p ∉ c.map (fun l => l.id)) :
    c.map (fun l => if l.id = p then { l with quantity := q } else l) = c := by
  induction c with
  | nil => rfl
  | cons l t ih =>
    simp only [List.map_cons, List.mem_cons] at h
    push_neg at h
    have h1 : ¬ l.id = p := fun e => h.1 e.symm
    simp [h1, ih h.2]

theorem setQuantityFirst_eq_map (c : List CartLine) (p : Nat) (q : Int)
    (hnd : (c.map (fun l => l.id)).Nodup) :
    setQuantityFirst c p q
      = c.map (fun l => if l.id = p then { l with quantity := q } else l) := by
  induction c with
  | nil => rfl
  | cons l t ih =>
    simp only [List.map_cons, List.nodup_cons] at hnd
    by_cases h : l.id = p
    · simp [setQuantityFirst, h, map_overwrite_of_not_mem t p q (h ▸ hnd.1)]
    · simp [setQuantityFirst, h, ih hnd.2]

/-- C9: on the cart-page state (in-memory cart plus persisted copy),
`updateCartItem(p, q)` with `q ≤ 0` on a present id is exactly
`removeCartItem(p)`; with `q > 0` on a present id it overwrites that line's
quantity with `q`, leaving every other line and the order intact (stated via
a pointwise map), in memory and in the store; and on an absent id it leaves
the whole state untouched for every `q`. -/
theorem updateCartItem_spec :
    (∀ (st : CartState) (p : Nat) (q : Int),
        q ≤ 0 → st.mem.any (fun item => item.id = p) = true →
        updateCartItemS st p q = removeCartItemS st p) ∧
    (∀ (st : CartState) (p : Nat) (q : Int),
        0 < q → (st.mem.map (fun l => l.id)).Nodup →
        st.mem.any (fun item => item.id = p) = true →
        updateCartItemS st p q =
          { mem := st.mem.map
              (fun l => if l.id = p then { l with quantity := q } else l),
            stored := st.mem.map
              (fun l => if l.id = p then { l with quantity := q } else l) }) ∧
    (∀ (st : CartState) (p : Nat) (q : Int),
        st.mem.any (fun item => item.id = p) = false →
        updateCartItemS st p q = st) := by
  refine ⟨?_, ?_, ?_⟩
  · intro st p q hq hp
    simp [updateCartItemS, hp, hq]
  · intro st p q hq hnd hp
    have hq' : ¬ q ≤ 0 := by omega
    simp [updateCartItemS, hp, hq', setQuantityFirst_eq_map st.mem p q hnd]
  · intro st p q hp
    simp [updateCartItemS, hp]

/-- Witness for C9 at concrete states: quantity 0 removes, quantity 7
overwrites, and an absent id is a complete no-op. -/
theorem updateCartItem_spec_witness :
    updateCartItemS ⟨[⟨1, 2⟩], [⟨1, 2⟩]⟩ 1 0
      = removeCartItemS ⟨[⟨1, 2⟩], [⟨1, 2⟩]⟩ 1 ∧
    updateCartItemS ⟨[⟨1, 2⟩], [⟨1, 2⟩]⟩ 1 7 =
      { mem := [(⟨1, 2⟩ : CartLine)].map
          (fun l => if l.id = 1 then { l with quantity := 7 } else l),
        stored := [(⟨1, 2⟩ : CartLine)].map
          (fun l => if l.id = 1 then { l with quantity := 7 } else l) } ∧
    updateCartItemS ⟨[⟨1, 2⟩], [⟨1, 2⟩]⟩ 9 5 = ⟨[⟨1, 2⟩], [⟨1, 2⟩]⟩ :=
  ⟨updateCartItem_spec.1 ⟨[⟨1, 2⟩], [⟨1, 2⟩]⟩ 1 0 (by decide) (by decide),
   updateCartItem_spec.2.1 ⟨[⟨1, 2⟩], [⟨1, 2⟩]⟩ 1 7 (by decide) (by decide)
     (by decide),
   updateCartItem_spec.2.2 ⟨[⟨1, 2⟩], [⟨1, 2⟩]⟩ 9 5 (by decide)⟩

/-- C2: submitting the checkout form with an empty cart shows the warning
and blocks the submission with nothing written; with a non-empty cart it
writes exactly one order record to `lastOrder` whose `items` is the cart at
submission time, and empties the cart both in memory and in the persisted
store. -/
theorem submitCheckout_spec :
    (∀ (st : CheckoutState) (oid od : String) (cust : CustomerInfo)
        (ship : ShippingInfo) (m : ShippingMethod) (pay : PaymentMethod)
        (tt : TotalsText) (today : Nat),
        st.cart = [] →
        submitCheckout st oid od cust ship m pay tt today = (st, true)) ∧
    (∀ (st : CheckoutState) (oid od : String) (cust : CustomerInfo)
        (ship : ShippingInfo) (m : ShippingMethod) (pay : PaymentMethod)
        (tt : TotalsText) (today : Nat),
        st.cart ≠ [] →
        (submitCheckout st oid od cust ship m pay tt today).2 = false ∧
        (submitCheckout st oid od cust ship m pay tt today).1.cart = [] ∧
        (submitCheckout st oid od cust ship m pay tt today).1.storedCart = [] ∧
        ∃ o : OrderRec,
          (submitCheckout st oid od cust ship m pay tt today).1.lastOrder
            = some o ∧ o.items = st.cart) := by
  constructor
  · intro st oid od cust ship m pay tt today h
    simp [submitCheckout, h]
  · intro st oid od cust ship m pay tt today h
    have h' : ¬ st.cart.isEmpty = true := by simp [List.isEmpty_iff, h]
    refine ⟨?_, ?_, ?_, ?_⟩ <;> simp [submitCheckout, h']

/-- Witness for C2: an empty-cart submission is blocked unchanged, and a
one-line-cart submission clears the cart and records the order. -/
theorem submitCheckout_spec_witness :
    submitCheckout ⟨[], [], none⟩ "ORD-1" "d" ⟨"n", "p", "e"⟩
        ⟨"a", "pr", "di", "wa", "no"⟩ ShippingMethod.standard
        PaymentMethod.cod ⟨"s", "d", "sh", "t"⟩ 0
      = (⟨[], [], none⟩, true) ∧
    ((submitCheckout ⟨[⟨1, 1⟩], [⟨1, 1⟩], none⟩ "ORD-1" "d" ⟨"n", "p", "e"⟩
        ⟨"a", "pr", "di", "wa", "no"⟩ ShippingMethod.standard
        PaymentMethod.cod ⟨"s", "d", "sh", "t"⟩ 0).2 = false ∧
      (submitCheckout ⟨[⟨1, 1⟩], [⟨1, 1⟩], none⟩ "ORD-1" "d" ⟨"n", "p", "e"⟩
        ⟨"a", "pr", "di", "wa", "no"⟩ ShippingMethod.standard
        PaymentMethod.cod ⟨"s", "d", "sh", "t"⟩ 0).1.cart = [] ∧
      (submitCheckout ⟨[⟨1, 1⟩], [⟨1, 1⟩], none⟩ "ORD-1" "d" ⟨"n", "p", "e"⟩
        ⟨"a", "pr", "di", "wa", "no"⟩ ShippingMethod.standard
        PaymentMethod.cod ⟨"s", "d", "sh", "t"⟩ 0).1.storedCart = [] ∧
      ∃ o : OrderRec,
        (submitCheckout ⟨[⟨1, 1⟩], [⟨1, 1⟩], none⟩ "ORD-1" "d" ⟨"n", "p", "e"⟩
          ⟨"a", "pr", "di", "wa", "no"⟩ ShippingMethod.standard
          PaymentMethod.cod ⟨"s", "d", "sh", "t"⟩ 0).1.lastOrder = some o ∧
        o.items = [⟨1, 1⟩]) :=
  ⟨submitCheckout_spec.1 ⟨[], [], none⟩ "ORD-1" "d" ⟨"n", "p", "e"⟩
      ⟨"a", "pr", "di", "wa", "no"⟩ ShippingMethod.standard PaymentMethod.cod
      ⟨"s", "d", "sh", "t"⟩ 0 rfl,
   submitCheckout_spec.2 ⟨[⟨1, 1⟩], [⟨1, 1⟩], none⟩ "ORD-1" "d" ⟨"n", "p", "e"⟩
      ⟨"a", "pr", "di", "wa", "no"⟩ ShippingMethod.standard PaymentMethod.cod
      ⟨"s", "d", "sh", "t"⟩ 0 (by decide)⟩

/-- C3: for every subtotal the checkout totals carry `discount = 0`,
`shipping = 50000` for express and `0` for standard, and
`total = subtotal − discount + shipping`; for every non-negative subtotal
the total is non-negative; and with subtotal 250000 and express shipping the
total is 300000 (end-to-end scenario C). -/
theorem updateCheckoutTotals_spec :
    (∀ (s : Int) (m : ShippingMethod),
        (updateCheckoutTotals s m).discount = 0 ∧
        (updateCheckoutTotals s m).shipping
          = (if m = ShippingMethod.express then (50000 : Int) else 0) ∧
        (updateCheckoutTotals s m).total
          = s - (updateCheckoutTotals s m).discount
            + (updateCheckoutTotals s m).shipping) ∧
    (∀ (s : Int) (m : ShippingMethod),
        0 ≤ s → 0 ≤ (updateCheckoutTotals s m).total) ∧
    (updateCheckoutTotals 250000 ShippingMethod.express).total = 300000 := by
  refine ⟨?_, ?_, by decide⟩
  · intro s m
    cases m <;> simp [updateCheckoutTotals]
  · intro s m hs
    cases m <;> simp [updateCheckoutTotals] <;> omega

/-- Witness for C3's non-negativity part at subtotal 250000, express. -/
theorem updateCheckoutTotals_spec_witness :
    0 ≤ (updateCheckoutTotals 250000 ShippingMethod.express).total :=
  updateCheckoutTotals_spec.2.1 250000 ShippingMethod.express (by decide)

theorem foldl_resolve (api fallback : Nat → Option ProductInfo)
    (cart : List CartLine) :
    ∀ a : Int,
      cart.foldl
        (fun acc item =>
          match resolveProduct api fallback item.id with
          | some product => acc + product.price * item.quantity
          | none => acc) a
      = a + resolvedLineSum api fallback cart := by
  induction cart with
  | nil =>
    intro a
    simp [resolvedLineSum]
  | cons l t ih =>
    intro a
    simp only [List.foldl_cons]
    cases h : resolveProduct api fallback l.id with
    | none =>
      simp only [h]
      rw [ih]
      simp [resolvedLineSum, List.filterMap_cons, h]
    | some p0 =>
      simp only [h]
      rw [ih]
      simp only [resolvedLineSum, List.filterMap_cons, h, Option.map_some',
        List.sum_cons]
      ring

/-- C4: for every pair of lookup outcomes the rendered cart total is the sum
of `price × quantity` over exactly the lines resolving via the primary source
or, on its failure, the fallback catalog — an unresolved line contributes
nothing and never fails the computation; for cart `[{1,2},{2,1}]` with
product 1 priced 100000 (primary) and product 2 priced 50000 (fallback) the
total is 250000 (scenario B), and an extra line `{99,5}` resolving nowhere
leaves it at 250000. -/
theorem renderCartTotal_spec :
    (∀ (api fallback : Nat → Option ProductInfo) (cart : List CartLine),
        renderCartTotal api fallback cart = resolvedLineSum api fallback cart) ∧
    renderCartTotal scenarioApi scenarioFallback [⟨1, 2⟩, ⟨2, 1⟩] = 250000 ∧
    renderCartTotal scenarioApi scenarioFallback [⟨1, 2⟩, ⟨2, 1⟩, ⟨99, 5⟩]
      = 250000 := by
  refine ⟨?_, by decide, by decide⟩
  intro api fallback cart
  simpa using foldl_resolve api fallback cart 0

/-- C5: the delivery estimate of `getEstimatedDelivery` coincides with the
spec's description as a pure function of `(today, shippingMethod)` — start
tomorrow, skipping the non-delivery day Sunday, end at start + 2 (express) or
start + 5 (standard) with the same skip — and for every `today` the express
end date never falls after the standard end date. -/
theorem getEstimatedDelivery_spec :
    (∀ (today : Nat) (m : ShippingMethod),
        getEstimatedDelivery today m = deliveryEstimateSpec today m) ∧
    (∀ today : Nat,
        (getEstimatedDelivery today ShippingMethod.express).2
          ≤ (getEstimatedDelivery today ShippingMethod.standard).2) := by
  constructor
  · intro today m
    cases m <;> rfl
  · intro today
    simp only [getEstimatedDelivery]
    split_ifs <;> simp_all

theorem removeFirstViewed_sublist (vs : List ViewedEntry) (i : Nat) :
    (removeFirstViewed vs i).Sublist vs := by
  induction vs with
  | nil => simp [removeFirstViewed]
  | cons e t ih =>
    by_cases h : e.id = i
    · simp only [removeFirstViewed, if_pos h]
      exact List.sublist_cons_self e t
    · simp only [removeFirstViewed, if_neg h]
      exact List.Sublist.cons₂ e ih

theorem length_removeFirstViewed_of_mem (vs : List ViewedEntry) (i : Nat)
    (h : i ∈ vs.map (fun e => e.id)) :
    (removeFirstViewed vs i).length + 1 = vs.length := by
  induction vs with
  | nil => simp at h
  | cons e t ih =>
    by_cases he : e.id = i
    · simp [removeFirstViewed, he]
    · have h' : i ∈ t.map (fun e => e.id) := by
        simp only [List.map_cons, List.mem_cons] at h
        rcases h with h | h
        · exact absurd h.symm he
        · exact h
      have := ih h'
      simp only [removeFirstViewed, if_neg he, List.length_cons]
      omega

theorem not_mem_removeFirstViewed (vs : List ViewedEntry) (i : Nat)
    (hnd : (vs.map (fun e => e.id)).Nodup) :
    i ∉ (removeFirstViewed vs i).map (fun e => e.id) := by
  induction vs with
  | nil => simp [removeFirstViewed]
  | cons e t ih =>
    simp only [List.map_cons, List.nodup_cons] at hnd
    by_cases he : e.id = i
    · simp only [removeFirstViewed, if_pos he]
      rw [← he]
      exact hnd.1
    · simp only [removeFirstViewed, if_neg he, List.map_cons, List.mem_cons]
      push_neg
      exact ⟨fun h => he h.symm, ih hnd.2⟩

theorem saveViewedProduct_length_le (vs : List ViewedEntry) (p : ProductInfo) :
    (saveViewedProduct vs p).length ≤ 10 := by
  simp only [saveViewedProduct, List.length_take]
  omega

theorem saveViewedProduct_nodup (vs : List ViewedEntry) (p : ProductInfo)
    (hnd : (vs.map (fun e => e.id)).Nodup) :
    ((saveViewedProduct vs p).map (fun e => e.id)).Nodup := by
  have h1 : ((removeFirstViewed vs p.id).map (fun e => e.id)).Nodup :=
    List.Nodup.sublist (List.Sublist.map _ (removeFirstViewed_sublist vs p.id))
      hnd
  have h2 := not_mem_removeFirstViewed vs p.id hnd
  have h3 : ((toViewedEntry p :: removeFirstViewed vs p.id).map
      (fun e => e.id)).Nodup := by
    simp only [List.map_cons, List.nodup_cons]
    exact ⟨by simpa [toViewedEntry] using h2, h1⟩
  exact List.Nodup.sublist (List.Sublist.map _ (List.take_sublist 10 _)) h3

theorem runViewed_bounded (ps : List ProductInfo) :
    (runViewed ps).length ≤ 10 ∧
    ((runViewed ps).map (fun e => e.id)).Nodup := by
  suffices h : ∀ (qs : List ProductInfo) (vs : List ViewedEntry),
      vs.length ≤ 10 → (vs.map (fun e => e.id)).Nodup →
      (qs.foldl saveViewedProduct vs).length ≤ 10 ∧
      ((qs.foldl saveViewedProduct vs).map (fun e => e.id)).Nodup by
    exact h ps [] (by simp) (by simp)
  intro qs
  induction qs with
  | nil =>
    intro vs h1 h2
    exact ⟨h1, h2⟩
  | cons p t ih =>
    intro vs h1 h2
    exact ih _ (saveViewedProduct_length_le vs p) (saveViewedProduct_nodup vs p h2)

/-- C7: starting from the empty store, after any sequence of
`saveViewedProduct` calls the persisted list has at most 10 entries and
pairwise distinct ids; and recording a product whose id is already present
puts its fresh snapshot at index 0 without changing the list's length. -/
theorem saveViewedProduct_spec :
    (∀ ps : List ProductInfo,
        (runViewed ps).length ≤ 10 ∧
        ((runViewed ps).map (fun e => e.id)).Nodup) ∧
    (∀ (vs : List ViewedEntry) (p : ProductInfo),
        p.id ∈ vs.map (fun e => e.id) → vs.length ≤ 10 →
        (saveViewedProduct vs p).length = vs.length ∧
        (saveViewedProduct vs p).head? = some (toViewedEntry p)) := by
  constructor
  · exact runViewed_bounded
  · intro vs p hmem hlen
    have hrem := length_removeFirstViewed_of_mem vs p.id hmem
    constructor
    · simp only [saveViewedProduct, List.length_take, List.length_cons]
      omega
    · have hcons : (toViewedEntry p :: removeFirstViewed vs p.id).take 10
          = toViewedEntry p :: (removeFirstViewed vs p.id).take 9 := rfl
      simp [saveViewedProduct, hcons]

/-- Witness for C7: re-viewing the already-present product 5 in a two-entry
store keeps the length at 2 and moves its snapshot to the front. -/
theorem saveViewedProduct_spec_witness :
    (saveViewedProduct
        [⟨5, "a", 1, none, "", "", none, none⟩,
         ⟨6, "b", 2, none, "", "", none, none⟩]
        ⟨5, "a2", 3, none, "", "", none, none⟩).length = 2 ∧
    (saveViewedProduct
        [⟨5, "a", 1, none, "", "", none, none⟩,
         ⟨6, "b", 2, none, "", "", none, none⟩]
        ⟨5, "a2", 3, none, "", "", none, none⟩).head?
      = some (toViewedEntry ⟨5, "a2", 3, none, "", "", none, none⟩) :=
  saveViewedProduct_spec.2
    [⟨5, "a", 1, none, "", "", none, none⟩,
     ⟨6, "b", 2, none, "", "", none, none⟩]
    ⟨5, "a2", 3, none, "", "", none, none⟩ (by decide) (by decide)

theorem digitChar_isDigit (d : Nat) (h : d < 10) :
    (digitChar d).isDigit = true := by
  interval_cases d <;> decide

theorem digitChar_toNat (d : Nat) (h : d < 10) :
    (digitChar d).toNat - 48 = d := by
  interval_cases d <;> decide

theorem decimalChars_all_digits (n : Nat) :
    ∀ c ∈ decimalChars n, c.isDigit = true := by
  intro c hc
  by_cases h : n = 0
  · subst h
    simp only [decimalChars, if_pos] at hc
    simp only [List.mem_singleton] at hc
    subst hc
    decide
  · simp only [decimalChars, if_neg h, List.mem_reverse, List.mem_map] at hc
    obtain ⟨d, hd, rfl⟩ := hc
    exact digitChar_isDigit d (Nat.digits_lt_base (by norm_num) hd)

theorem groupThrees_filter :
    ∀ l : List Char, (∀ c ∈ l, c.isDigit = true) →
      (groupThrees l).filter (fun c => c.isDigit) = l
  | [], _ => rfl
  | [a], h => by
    have ha := h a (by simp)
    show [a].filter (fun c => c.isDigit) = [a]
    simp [ha]
  | [a, b], h => by
    have ha := h a (by simp)
    have hb := h b (by simp)
    show [a, b].filter (fun c => c.isDigit) = [a, b]
    simp [ha, hb]
  | [a, b, c], h => by
    have ha := h a (by simp)
    have hb := h b (by simp)
    have hc := h c (by simp)
    show [a, b, c].filter (fun c => c.isDigit) = [a, b, c]
    simp [ha, hb, hc]
  | a :: b :: c :: d :: rest, h => by
    have ih := groupThrees_filter (d :: rest)
      (fun x hx => h x (by simp only [List.mem_cons] at hx ⊢; tauto))
    have ha := h a (by simp)
    have hb := h b (by simp)
    have hc := h c (by simp)
    show (a :: b :: c :: '.' :: groupThrees (d :: rest)).filter
        (fun c => c.isDigit) = a :: b :: c :: d :: rest
    simp [List.filter_cons, ha, hb, hc, ih]

theorem foldl_parse_rev (ds : List Nat) (h : ∀ d ∈ ds, d < 10) :
    ∀ a : Nat,
      List.foldl (fun acc c => 10 * acc + (c.toNat - 48)) a
        ((ds.map digitChar).reverse)
      = a * 10 ^ ds.length + Nat.ofDigits 10 ds := by
  induction ds with
  | nil =>
    intro a
    simp [Nat.ofDigits_nil]
  | cons d t ih =>
    intro a
    simp only [List.map_cons, List.reverse_cons, List.foldl_append,
      List.foldl_cons, List.foldl_nil]
    rw [ih (fun x hx => h x (by simp [hx]))]
    rw [digitChar_toNat d (h d (by simp))]
    rw [Nat.ofDigits_cons]
    simp only [List.length_cons]
    ring

theorem parseDigits_decimalChars (n : Nat) :
    parseDigits (decimalChars n) = n := by
  by_cases h : n = 0
  · subst h
    rfl
  · simp only [decimalChars, if_neg h, parseDigits]
    rw [foldl_parse_rev (Nat.digits 10 n)
      (fun d hd => Nat.digits_lt_base (by norm_num) hd) 0]
    simp [Nat.ofDigits_digits]

/-- C10: for every non-negative integer `n`, stripping the non-digit
characters from `formatCurrency n` (the vi-VN grouped display with the đồng
sign) and reading the remaining digits back as a number recovers `n` — the
round trip the checkout page uses to re-read its displayed subtotal. -/
theorem formatCurrency_roundtrip (n : Nat) :
    parseDigits (stripNonDigits (formatCurrency n)) = n := by
  have hdata : (formatCurrency n).data
      = (groupThrees (decimalChars n).reverse).reverse ++ ['₫'] := rfl
  show parseDigits ((formatCurrency n).data.filter (fun c => c.isDigit)) = n
  rw [hdata, List.filter_append]
  have h1 : (['₫'] : List Char).filter (fun c => c.isDigit) = [] := rfl
  rw [h1, List.append_nil, List.filter_reverse]
  rw [groupThrees_filter ((decimalChars n).reverse)
    (fun c hc => decimalChars_all_digits n c (by simpa using hc))]
  rw [List.reverse_reverse]
  exact parseDigits_decimalChars n

/-- C6 (code bug in the source): the cart initialiser at main.js:18 parses
the stored blob with no try/catch, so a corrupt blob (here the single
character 0x7b, an unterminated object) makes `JSON.parse` throw and the
exception propagate out of the script's top level (`none`), instead of the
value being treated as absent/empty — while an absent key or a valid `'[]'`
blob does yield the empty cart. -/
theorem initCart_corrupt_blob_errors :
    initCart (some "\x7b") = none ∧
    initCart none = some [] ∧
    initCart (some "[]") = some [] :=
  ⟨rfl, rfl, rfl⟩
